import Mathlib

/-!
# SecureChat — verification of the presence/session client logic

Shallow embedding of the SecureChat client (src/app.js and the unnamed
variant src/unnamed/part_000).  JavaScript strings are modelled as Lean
`String`/`List Char`, Firestore server timestamps as `Option Nat` (seconds,
`none` = pending/absent), Firestore documents as Lean structures, and each
event handler as a pure function from its inputs and the relevant store
state to the updated state plus its observable effects (writes, posted
messages, shown errors).
-/

/-! ## JavaScript string primitives -/

/-- Code points removed by JavaScript `String.prototype.trim`
(WhiteSpace and LineTerminator productions). -/
def jsWhitespaceCodes : List Nat :=
  [9, 10, 11, 12, 13, 32, 160, 0x1680, 0x2000, 0x2001, 0x2002, 0x2003, 0x2004,
   0x2005, 0x2006, 0x2007, 0x2008, 0x2009, 0x200a, 0x2028, 0x2029, 0x202f,
   0x205f, 0x3000, 0xfeff]

def jsIsWhitespace (c : Char) : Bool := jsWhitespaceCodes.contains c.toNat

/-- `String.prototype.trim` on the character list. -/
def jsTrimChars (l : List Char) : List Char :=
  ((l.dropWhile jsIsWhitespace).reverse.dropWhile jsIsWhitespace).reverse

/-- JavaScript `s.trim()`. -/
def jsTrim (s : String) : String := String.mk (jsTrimChars s.data)

/-- JavaScript `toLowerCase` on one character (ASCII case mapping; the
room-name code filters to `[a-z0-9-]` right after, so only the ASCII
mapping is observable in the normalization pipeline). -/
def jsToLowerChar (c : Char) : Char :=
  if 65 ≤ c.toNat ∧ c.toNat ≤ 90 then Char.ofNat (c.toNat + 32) else c

/-- The character class `[a-z0-9-]` of the room-name regex. -/
def isRoomChar (c : Char) : Bool :=
  (97 ≤ c.toNat && c.toNat ≤ 122) || (48 ≤ c.toNat && c.toNat ≤ 57)
    || c.toNat == 45

/-- `roomInput.value.trim().toLowerCase().replace(/[^a-z0-9-]/g, '')`
(src/app.js line 181, src/unnamed/part_000 line 329), on character lists. -/
def normalizeRoomChars (l : List Char) : List Char :=
  ((jsTrimChars l).map jsToLowerChar).filter isRoomChar

/-- Room-name normalization as performed by `handleRoomFormSubmit`. -/
def normalizeRoomName (s : String) : String :=
  String.mk (normalizeRoomChars s.data)

/-! ### Normalization lemmas -/

theorem jsToLowerChar_of_isRoomChar {c : Char} (h : isRoomChar c = true) :
    jsToLowerChar c = c := by
  simp only [isRoomChar, Bool.or_eq_true, Bool.and_eq_true, decide_eq_true_eq,
    beq_iff_eq] at h
  unfold jsToLowerChar
  rw [if_neg]
  omega

theorem jsIsWhitespace_of_isRoomChar {c : Char} (h : isRoomChar c = true) :
    jsIsWhitespace c = false := by
  simp only [isRoomChar, Bool.or_eq_true, Bool.and_eq_true, decide_eq_true_eq,
    beq_iff_eq] at h
  simp only [jsIsWhitespace, jsWhitespaceCodes, List.elem_eq_mem,
    List.mem_cons, List.not_mem_nil, or_false, decide_eq_false_iff_not]
  omega

theorem dropWhile_of_all_false {p : α → Bool} :
    ∀ {l : List α}, (∀ a ∈ l, p a = false) → l.dropWhile p = l
  | [], _ => rfl
  | a :: l, h => by
    simp [List.dropWhile, h a (List.mem_cons_self a l)]

theorem jsTrimChars_of_all_room {l : List Char}
    (h : ∀ c ∈ l, isRoomChar c = true) : jsTrimChars l = l := by
  unfold jsTrimChars
  rw [dropWhile_of_all_false fun a ha => jsIsWhitespace_of_isRoomChar (h a ha)]
  rw [dropWhile_of_all_false fun a ha =>
    jsIsWhitespace_of_isRoomChar (h a (List.mem_reverse.mp ha))]
  exact List.reverse_reverse l

theorem map_of_forall_eq {f : α → α} :
    ∀ {l : List α}, (∀ a ∈ l, f a = a) → l.map f = l
  | [], _ => rfl
  | a :: l, h => by
    simp only [List.map_cons, h a (List.mem_cons_self a l)]
    rw [map_of_forall_eq fun b hb => h b (List.mem_cons_of_mem a hb)]

theorem normalizeRoomChars_mem {l : List Char} {c : Char}
    (h : c ∈ normalizeRoomChars l) : isRoomChar c = true :=
  (List.mem_filter.mp h).2

theorem normalizeRoomChars_idem (l : List Char) :
    normalizeRoomChars (normalizeRoomChars l) = normalizeRoomChars l := by
  have hmem : ∀ c ∈ normalizeRoomChars l, isRoomChar c = true :=
    fun c hc => normalizeRoomChars_mem hc
  show ((jsTrimChars (normalizeRoomChars l)).map jsToLowerChar).filter isRoomChar
      = normalizeRoomChars l
  rw [jsTrimChars_of_all_room hmem]
  rw [map_of_forall_eq fun c hc => jsToLowerChar_of_isRoomChar (hmem c hc)]
  exact List.filter_eq_self.mpr hmem

/-- C9: room-name normalization is idempotent and its output matches
`^[a-z0-9-]*$` — every character of the output is in `[a-z0-9-]`. -/
theorem roomName_normalization_idempotent_and_charset (s : String) :
    normalizeRoomName (normalizeRoomName s) = normalizeRoomName s ∧
    ∀ c ∈ (normalizeRoomName s).data, isRoomChar c = true := by
  constructor
  · show String.mk (normalizeRoomChars (String.mk (normalizeRoomChars s.data)).data)
        = String.mk (normalizeRoomChars s.data)
    rw [show (String.mk (normalizeRoomChars s.data)).data
        = normalizeRoomChars s.data from rfl]
    rw [normalizeRoomChars_idem]
  · intro c hc
    exact normalizeRoomChars_mem hc

/-! ## hashPassword — SHA-256 over the UTF-8 bytes, hex-encoded
(src/app.js lines 547-554, src/unnamed/part_000 lines 1214-1221:
`crypto.subtle.digest('SHA-256', TextEncoder().encode(password))`, then
each byte rendered with `toString(16).padStart(2, '0')`). -/

def M32 : Nat := 4294967296

def add32 (a b : Nat) : Nat := (a + b) % M32

def rotr32 (x n : Nat) : Nat := ((x >>> n) + ((x <<< (32 - n)) % M32)) % M32

def xor32 (a b : Nat) : Nat := Nat.xor a b

def not32 (a : Nat) : Nat := Nat.xor a 4294967295

/-- UTF-8 encoding of one code point (`TextEncoder` semantics). -/
def utf8Bytes (c : Char) : List Nat :=
  let n := c.toNat
  if n < 128 then [n]
  else if n < 2048 then [192 + n / 64, 128 + n % 64]
  else if n < 65536 then [224 + n / 4096, 128 + (n / 64) % 64, 128 + n % 64]
  else [240 + n / 262144, 128 + (n / 4096) % 64, 128 + (n / 64) % 64, 128 + n % 64]

def utf8Encode (s : String) : List Nat := s.data.flatMap utf8Bytes

def sha256K : List Nat :=
  [1116352408, 1899447441, 3049323471, 3921009573, 961987163, 1508970993,
   2453635748, 2870763221, 3624381080, 310598401, 607225278, 1426881987,
   1925078388, 2162078206, 2614888103, 3248222580, 3835390401, 4022224774,
   264347078, 604807628, 770255983, 1249150122, 1555081692, 1996064986,
   2554220882, 2821834349, 2952996808, 3210313671, 3336571891, 3584528711,
   113926993, 338241895, 666307205, 773529912, 1294757372, 1396182291,
   1695183700, 1986661051, 2177026350, 2456956037, 2730485921, 2820302411,
   3259730800, 3345764771, 3516065817, 3600352804, 4094571909, 275423344,
   430227734, 506948616, 659060556, 883997877, 958139571, 1322822218,
   1537002063, 1747873779, 1955562222, 2024104815, 2227730452, 2361852424,
   2428436474, 2756734187, 3204031479, 3329325298]

structure Hash8 where
  h0 : Nat
  h1 : Nat
  h2 : Nat
  h3 : Nat
  h4 : Nat
  h5 : Nat
  h6 : Nat
  h7 : Nat

def sha256H0 : Hash8 :=
  ⟨1779033703, 3144134277, 1013904242, 2773480762, 1359893119, 2600822924, 528734635, 1541459225⟩

/-- SHA-256 padding: append `0x80`, zeros, then the 64-bit big-endian bit
length, reaching a multiple of 64 bytes. -/
def sha256Pad (msg : List Nat) : List Nat :=
  let len := msg.length
  let zeros := (64 - (len + 9) % 64) % 64
  let bitLen := len * 8
  msg ++ [128] ++ List.replicate zeros 0 ++
    [bitLen / 2^56 % 256, bitLen / 2^48 % 256, bitLen / 2^40 % 256, bitLen / 2^32 % 256,
     bitLen / 2^24 % 256, bitLen / 2^16 % 256, bitLen / 2^8 % 256, bitLen % 256]

def toChunksFuel : Nat → List Nat → List (List Nat)
  | 0, _ => []
  | _, [] => []
  | fuel+1, a :: t => ((a :: t).take 64) :: toChunksFuel fuel (t.drop 63)

def toChunks (l : List Nat) : List (List Nat) := toChunksFuel l.length l

/-- 16 big-endian 32-bit words from one 64-byte chunk. -/
def chunkWords (chunk : List Nat) : List Nat :=
  (List.range 16).map fun i =>
    (chunk.getD (4*i) 0) * 2^24 + (chunk.getD (4*i+1) 0) * 2^16 +
    (chunk.getD (4*i+2) 0) * 2^8 + (chunk.getD (4*i+3) 0)

def smallSigma0 (x : Nat) : Nat := xor32 (xor32 (rotr32 x 7) (rotr32 x 18)) (x >>> 3)

def smallSigma1 (x : Nat) : Nat := xor32 (xor32 (rotr32 x 17) (rotr32 x 19)) (x >>> 10)

def bigSigma0 (x : Nat) : Nat := xor32 (xor32 (rotr32 x 2) (rotr32 x 13)) (rotr32 x 22)

def bigSigma1 (x : Nat) : Nat := xor32 (xor32 (rotr32 x 6) (rotr32 x 11)) (rotr32 x 25)

/-- Extend the 16 schedule words by `n` further words. -/
def extendSchedule (w : List Nat) : Nat → List Nat
  | 0 => w
  | n+1 =>
    let w' := extendSchedule w n
    let i := w'.length
    w' ++ [add32 (add32 (w'.getD (i-16) 0) (smallSigma1 (w'.getD (i-2) 0)))
            (add32 (w'.getD (i-7) 0) (smallSigma0 (w'.getD (i-15) 0)))]

def sha256Round (st : Hash8) (ki wi : Nat) : Hash8 :=
  let t1 := add32 (add32 st.h7 (bigSigma1 st.h4))
    (add32 (Nat.xor (Nat.land st.h4 st.h5) (Nat.land (not32 st.h4) st.h6))
      (add32 ki wi))
  let t2 := add32 (bigSigma0 st.h0)
    (Nat.xor (Nat.xor (Nat.land st.h0 st.h1) (Nat.land st.h0 st.h2))
      (Nat.land st.h1 st.h2))
  ⟨add32 t1 t2, st.h0, st.h1, st.h2, add32 st.h3 t1, st.h4, st.h5, st.h6⟩

def sha256Compress (h : Hash8) (chunk : List Nat) : Hash8 :=
  let w := extendSchedule (chunkWords chunk) 48
  let st := (List.zip sha256K w).foldl (fun st p => sha256Round st p.1 p.2) h
  ⟨add32 h.h0 st.h0, add32 h.h1 st.h1, add32 h.h2 st.h2, add32 h.h3 st.h3,
   add32 h.h4 st.h4, add32 h.h5 st.h5, add32 h.h6 st.h6, add32 h.h7 st.h7⟩

def sha256Core (msg : List Nat) : Hash8 :=
  (toChunks (sha256Pad msg)).foldl sha256Compress sha256H0

def sha256Words (msg : List Nat) : List Nat :=
  let h := sha256Core msg
  [h.h0, h.h1, h.h2, h.h3, h.h4, h.h5, h.h6, h.h7]

/-- Big-endian bytes of one 32-bit word (`Uint8Array` view of the digest). -/
def wordBytes (w : Nat) : List Nat :=
  [w / 2^24 % 256, w / 2^16 % 256, w / 2^8 % 256, w % 256]

/-- `b.toString(16)` digits for a nibble (lowercase hex). -/
def hexDigitChar (n : Nat) : Char :=
  if n < 10 then Char.ofNat (48 + n) else Char.ofNat (87 + n)

/-- `b.toString(16).padStart(2, '0')` for a byte `b < 256`. -/
def byteHexChars (b : Nat) : List Char :=
  [hexDigitChar (b / 16), hexDigitChar (b % 16)]

/-- `hashPassword` (identical in both source variants): SHA-256 of the
UTF-8 bytes of the password, as a lowercase hex string. -/
def hashPassword (password : String) : String :=
  String.mk (((sha256Words (utf8Encode password)).flatMap wordBytes).flatMap byteHexChars)

/-- The character class `[0-9a-f]` of lowercase hexadecimal digits. -/
def isLowerHexChar (c : Char) : Bool :=
  (48 ≤ c.toNat && c.toNat ≤ 57) || (97 ≤ c.toNat && c.toNat ≤ 102)

theorem hexDigitChar_isLowerHex {n : Nat} (h : n < 16) :
    isLowerHexChar (hexDigitChar n) = true := by
  interval_cases n <;> decide

theorem byteHexChars_hex {b : Nat} {c : Char} (hb : b < 256)
    (hc : c ∈ byteHexChars b) : isLowerHexChar c = true := by
  simp only [byteHexChars, List.mem_cons, List.not_mem_nil, or_false] at hc
  rcases hc with h | h
  · subst h; exact hexDigitChar_isLowerHex (by omega)
  · subst h; exact hexDigitChar_isLowerHex (by omega)

theorem wordBytes_lt {w b : Nat} (hb : b ∈ wordBytes w) : b < 256 := by
  simp only [wordBytes, List.mem_cons, List.not_mem_nil, or_false] at hb
  rcases hb with h | h | h | h <;> subst h <;> omega

/-- C10: `hashPassword` is deterministic (it is a pure function of the input
string in this embedding, so equal inputs give equal outputs), and its
output is always a 64-character string of lowercase hexadecimal digits,
making the byte-for-byte comparison against stored `passwordHash` values
well-defined. -/
theorem hashPassword_deterministic_and_hex (p : String) :
    hashPassword p = hashPassword p ∧
    (hashPassword p).length = 64 ∧
    ∀ c ∈ (hashPassword p).data, isLowerHexChar c = true := by
  refine ⟨rfl, ?_, ?_⟩
  · show (((sha256Words (utf8Encode p)).flatMap wordBytes).flatMap byteHexChars).length = 64
    simp [sha256Words, wordBytes, byteHexChars]
  · intro c hc
    have hc' : c ∈ ((sha256Words (utf8Encode p)).flatMap wordBytes).flatMap byteHexChars := hc
    rw [List.mem_flatMap] at hc'
    obtain ⟨b, hb, hcb⟩ := hc'
    rw [List.mem_flatMap] at hb
    obtain ⟨w, _, hbw⟩ := hb
    exact byteHexChars_hex (wordBytes_lt hbw) hcb

/-! ## Room Access Controller
(src/unnamed/part_000: `handleRoomFormSubmit` lines 326-385,
`handlePasswordVerifySubmit` lines 390-421, `verifyRoomExists` 301-321). -/

/-- A `chat-rooms/<name>` document. -/
structure RoomRec where
  passwordHash : String
  createdAt : Option Nat
deriving DecidableEq

/-- The `chat-rooms` collection: name-keyed documents.  `setRoom` conses,
`lookupRoom` takes the first match, so later writes shadow earlier ones. -/
structure RoomsDB where
  rooms : List (String × RoomRec)
deriving DecidableEq

def lookupRoom (db : RoomsDB) (name : String) : Option RoomRec :=
  (db.rooms.find? fun q => q.1 == name).map fun q => q.2

def setRoom (db : RoomsDB) (name : String) (r : RoomRec) : RoomsDB :=
  ⟨(name, r) :: db.rooms⟩

/-- Outcome of the "Create or Join Room" form.  `nameScreen` means the UI
advanced to the name-claim screen; the error outcomes leave the room form
showing with an inline error. -/
inductive RoomFormOutcome
  | requiredError
  | nameScreen (room : String)
  | invalidPasswordError
deriving DecidableEq

/-- `handleRoomFormSubmit`: normalize the room name, trim the password,
hash it, then compare against an existing room's stored hash or create the
room with the new hash. -/
def handleRoomFormSubmit (db : RoomsDB) (roomInput pwInput : String) (now : Nat) :
    RoomFormOutcome × RoomsDB :=
  let roomName := normalizeRoomName roomInput
  let password := jsTrim pwInput
  if roomName = "" ∨ password = "" then (.requiredError, db)
  else
    let passwordHash := hashPassword password
    match lookupRoom db roomName with
    | some r =>
      if r.passwordHash = passwordHash then (.nameScreen roomName, db)
      else (.invalidPasswordError, db)
    | none => (.nameScreen roomName, setRoom db roomName ⟨passwordHash, some now⟩)

/-- Outcome of the password-verify form (join via URL / restored session). -/
inductive VerifyOutcome
  | noop
  | nameScreen
  | invalidPasswordError
deriving DecidableEq

/-- `handlePasswordVerifySubmit`: trim the password, hash it, and compare
with the current room's stored hash; mismatch or missing room shows
"Invalid password" and stays on the password prompt. -/
def handlePasswordVerifySubmit (db : RoomsDB) (currentRoom : Option String)
    (pwInput : String) : VerifyOutcome :=
  let password := jsTrim pwInput
  if password = "" then .noop
  else
    match currentRoom with
    | none => .noop
    | some room =>
      match lookupRoom db room with
      | some r =>
        if r.passwordHash = hashPassword password then .nameScreen
        else .invalidPasswordError
      | none => .invalidPasswordError

/-- C4: creating a room with password `p` and then verifying with `p`
advances to the name screen, while verifying with any `p'` whose SHA-256
digest differs fails with the "Invalid password" error and does not
advance past the password prompt. -/
theorem createRoom_then_verifyPassword (db : RoomsDB) (r p p' : String) (now : Nat)
    (hr : normalizeRoomName r ≠ "")
    (hp : jsTrim p ≠ "")
    (hp' : jsTrim p' ≠ "")
    (habsent : lookupRoom db (normalizeRoomName r) = none)
    (hdiff : hashPassword (jsTrim p') ≠ hashPassword (jsTrim p)) :
    ∃ db', handleRoomFormSubmit db r p now
        = (.nameScreen (normalizeRoomName r), db') ∧
      handlePasswordVerifySubmit db' (some (normalizeRoomName r)) p = .nameScreen ∧
      handlePasswordVerifySubmit db' (some (normalizeRoomName r)) p'
        = .invalidPasswordError := by
  refine ⟨setRoom db (normalizeRoomName r) ⟨hashPassword (jsTrim p), some now⟩, ?_, ?_, ?_⟩
  · unfold handleRoomFormSubmit
    rw [if_neg (by simp [hr, hp])]
    simp only [habsent]
  · unfold handlePasswordVerifySubmit
    rw [if_neg hp]
    simp [lookupRoom, setRoom, List.find?]
  · unfold handlePasswordVerifySubmit
    rw [if_neg hp']
    simp [lookupRoom, setRoom, List.find?, Ne.symm hdiff]

/-- C4 witness: concrete creation of room "myroom" (normalized from
" My Room! ") with password "secret"; verifying "secret" succeeds and
"Secret" (different digest) fails. -/
theorem createRoom_then_verifyPassword_witness :
    ∃ db', handleRoomFormSubmit ⟨[]⟩ " My Room! " "secret" 1000
        = (.nameScreen (normalizeRoomName " My Room! "), db') ∧
      handlePasswordVerifySubmit db' (some (normalizeRoomName " My Room! ")) "secret"
        = .nameScreen ∧
      handlePasswordVerifySubmit db' (some (normalizeRoomName " My Room! ")) "Secret"
        = .invalidPasswordError :=
  createRoom_then_verifyPassword ⟨[]⟩ " My Room! " "secret" "Secret" 1000
    (by decide) (by decide) (by decide) rfl (by decide)

/-! ## Stable client-side sort
`Array.prototype.sort` with a numeric comparator is a stable sort; we model
it as stable insertion sort (`le a b` = "a may stay before b", i.e. the
comparator returns ≤ 0 on `(a, b)`; on ties the earlier element stays
first). -/

def jsSortInsert (le : α → α → Bool) (a : α) : List α → List α
  | [] => [a]
  | b :: l => if le a b then a :: b :: l else b :: jsSortInsert le a l

def jsSort (le : α → α → Bool) : List α → List α
  | [] => []
  | a :: l => jsSortInsert le a (jsSort le l)

theorem mem_jsSortInsert {le : α → α → Bool} {a x : α} :
    ∀ {l : List α}, x ∈ jsSortInsert le a l → x = a ∨ x ∈ l
  | [], h => by simpa [jsSortInsert] using h
  | b :: l, h => by
    unfold jsSortInsert at h
    by_cases hc : le a b = true
    · rw [if_pos hc] at h
      simpa using h
    · rw [if_neg hc] at h
      rcases List.mem_cons.mp h with h1 | h1
      · exact Or.inr (h1 ▸ List.mem_cons_self b l)
      · rcases mem_jsSortInsert h1 with h2 | h2
        · exact Or.inl h2
        · exact Or.inr (List.mem_cons_of_mem b h2)

theorem jsSortInsert_perm (le : α → α → Bool) (a : α) :
    ∀ l : List α, (jsSortInsert le a l).Perm (a :: l)
  | [] => List.Perm.refl _
  | b :: l => by
    unfold jsSortInsert
    by_cases hc : le a b = true
    · rw [if_pos hc]
    · rw [if_neg hc]
      exact ((jsSortInsert_perm le a l).cons b).trans (List.Perm.swap a b l)

theorem jsSort_perm (le : α → α → Bool) : ∀ l : List α, (jsSort le l).Perm l
  | [] => List.Perm.refl _
  | a :: l => by
    unfold jsSort
    exact (jsSortInsert_perm le a _).trans ((jsSort_perm le l).cons a)

theorem jsSortInsert_pairwise {le : α → α → Bool}
    (htr : ∀ a b c, le a b = true → le b c = true → le a c = true)
    (htot : ∀ a b, le a b = true ∨ le b a = true) (a : α) :
    ∀ {l : List α}, l.Pairwise (fun x y => le x y = true) →
      (jsSortInsert le a l).Pairwise (fun x y => le x y = true)
  | [], _ => List.pairwise_singleton _ a
  | b :: l, h => by
    rw [List.pairwise_cons] at h
    unfold jsSortInsert
    by_cases hc : le a b = true
    · rw [if_pos hc]
      refine List.Pairwise.cons ?_ (List.Pairwise.cons h.1 h.2)
      intro x hx
      rcases List.mem_cons.mp hx with h1 | h1
      · exact h1 ▸ hc
      · exact htr a b x hc (h.1 x h1)
    · rw [if_neg hc]
      have hba : le b a = true := (htot a b).resolve_left hc
      refine List.Pairwise.cons ?_ (jsSortInsert_pairwise htr htot a h.2)
      intro x hx
      rcases mem_jsSortInsert hx with h1 | h1
      · exact h1 ▸ hba
      · exact h.1 x h1

theorem jsSort_pairwise {le : α → α → Bool}
    (htr : ∀ a b c, le a b = true → le b c = true → le a c = true)
    (htot : ∀ a b, le a b = true ∨ le b a = true) :
    ∀ l : List α, (jsSort le l).Pairwise (fun x y => le x y = true)
  | [] => List.Pairwise.nil
  | a :: l => jsSortInsert_pairwise htr htot a (jsSort_pairwise htr htot l)

/-! ## Presence Manager data model
(src/unnamed/part_000: `handleNameFormSubmit` lines 426-561,
`startPresenceCleanup` lines 656-707). -/

/-- A document of `chat-rooms/<room>/users`, keyed by the stable
client-assigned identity id (`currentUserId`). -/
structure UserRec where
  id : String
  name : String
  joined : Option Nat
  lastActive : Option Nat
deriving DecidableEq

/-- A document of `chat-rooms/<room>/messages`.  `timestamp` is the
server-assigned time in seconds, `none` while the `serverTimestamp()`
write is still pending (and for absent fields).  Document ids are
store-assigned; freshly written documents carry `id := ""` here. -/
structure MsgDoc where
  id : String
  type : Option String
  name : Option String
  text : String
  senderId : String
  timestamp : Option Nat
deriving DecidableEq

/-- `m.timestamp?.seconds || 0` — the sort key used by every client-side
message sort. -/
def tsSec (m : MsgDoc) : Nat := m.timestamp.getD 0

/-- Lowercasing of a whole JavaScript string (`name.toLowerCase()`). -/
def jsToLowerString (s : String) : String := String.mk (s.data.map jsToLowerChar)

def listStartsWith [BEq α] : List α → List α → Bool
  | [], _ => true
  | _ :: _, [] => false
  | a :: ns, b :: hs => a == b && listStartsWith ns hs

def listContainsSub [BEq α] (needle : List α) : List α → Bool
  | [] => listStartsWith needle []
  | b :: hs => listStartsWith needle (b :: hs) || listContainsSub needle hs

/-- JavaScript `hay.includes(needle)`. -/
def strIncludes (hay needle : String) : Bool := listContainsSub needle.data hay.data

/-- An `event`-type system message as written by the lifecycle code paths
(`{ type: 'event', text, timestamp: serverTimestamp(), senderId: 'system' }`),
with the acknowledged server time `now`. -/
def mkSystemEvent (text : String) (now : Nat) : MsgDoc :=
  ⟨"", some "event", none, text, "system", some now⟩

/-- `setDoc` on the users collection: overwrite the document with this id,
or create it. -/
def setUser (users : List UserRec) (u : UserRec) : List UserRec :=
  if users.any fun v => v.id == u.id then
    users.map fun v => if v.id == u.id then u else v
  else users ++ [u]

/-- The recent-leave scan of `handleNameFormSubmit` (part_000 lines
462-490): sort all messages by timestamp descending (stable), take the 50
most recent, and look for an `event` message whose text contains
`"<name> has left the room."` with a timestamp strictly newer than
`now − 300` seconds (5 minutes). -/
def wasRejoiningCheck (messages : List MsgDoc) (userName : String) (now : Nat) : Bool :=
  let recentMessages := jsSort (fun a b => tsSec b ≤ tsSec a) messages
  let fiveMinutesAgo : Int := (now : Int) - 300
  (recentMessages.take 50).any fun m =>
    m.type == some "event" && !(m.text == "") &&
    strIncludes m.text (userName ++ " has left the room.") &&
    (match m.timestamp with
     | some s => decide ((s : Int) > fiveMinutesAgo)
     | none => false)

/-- Result of one name-claim submission: the inline error (if any), whether
the UI advanced to the chat screen, the users collection afterwards, and
the messages appended by this handler. -/
structure NameSubmitOut where
  error : Option String
  success : Bool
  users : List UserRec
  newMessages : List MsgDoc
deriving DecidableEq

/-- `handleNameFormSubmit` (part_000 lines 426-561).  Scans all Presence
Records for a case-insensitive name match: a match with a different id is
a collision (error, no writes); a match with our own id is our own record
(refresh).  Otherwise writes/updates the own record and posts exactly one
lifecycle event message. -/
def handleNameFormSubmit (users : List UserRec) (messages : List MsgDoc)
    (nameInput : String) (uid : String) (now : Nat) : NameSubmitOut :=
  let name := jsTrim nameInput
  if name = "" then ⟨none, false, users, []⟩
  else
    let nameIsTaken := users.any fun u =>
      jsToLowerString u.name == jsToLowerString name && u.id != uid
    let existingUserDoc := (users.filter fun u =>
      jsToLowerString u.name == jsToLowerString name && u.id == uid).getLast?
    if nameIsTaken then
      ⟨some "This name is already in use. Please choose another.", false, users, []⟩
    else
      match existingUserDoc with
      | some _ =>
        let users' := users.map fun u =>
          if u.id == uid then { u with joined := some now, lastActive := some now } else u
        ⟨none, true, users', [mkSystemEvent (name ++ " has rejoined the room.") now]⟩
      | none =>
        let wasRejoining := wasRejoiningCheck messages name now
        let users' := setUser users ⟨uid, name, some now, some now⟩
        if wasRejoining then
          ⟨none, true, users', [mkSystemEvent (name ++ " has rejoined the room.") now]⟩
        else
          ⟨none, true, users', [mkSystemEvent (name ++ " has joined the room.") now]⟩

/-- C1: a name-claim submission colliding with a Presence Record that has
the same case-insensitive name but a different identity id fails with the
user-visible "name taken" error and performs no writes: the users
collection is returned unchanged and no message is appended. -/
theorem nameCollision_rejected_no_writes (users : List UserRec) (messages : List MsgDoc)
    (nameInput uid : String) (now : Nat)
    (hname : jsTrim nameInput ≠ "")
    (hcol : ∃ u ∈ users,
      jsToLowerString u.name = jsToLowerString (jsTrim nameInput) ∧ u.id ≠ uid) :
    handleNameFormSubmit users messages nameInput uid now =
      ⟨some "This name is already in use. Please choose another.", false, users, []⟩ := by
  have htaken : (users.any fun u =>
      jsToLowerString u.name == jsToLowerString (jsTrim nameInput) && u.id != uid) = true := by
    rw [List.any_eq_true]
    obtain ⟨u, hu, h1, h2⟩ := hcol
    exact ⟨u, hu, by simp [h1, h2]⟩
  unfold handleNameFormSubmit
  simp only [if_neg hname, htaken, if_true]

/-- C1 witness: "Alice" is held by identity "other"; identity "me"
submitting " alice " is rejected and both the record and the message log
are untouched. -/
theorem nameCollision_rejected_no_writes_witness :
    handleNameFormSubmit [⟨"other", "Alice", some 10, some 10⟩] [] " alice " "me" 1000 =
      ⟨some "This name is already in use. Please choose another.", false,
        [⟨"other", "Alice", some 10, some 10⟩], []⟩ :=
  nameCollision_rejected_no_writes _ _ _ _ _ (by decide)
    ⟨⟨"other", "Alice", some 10, some 10⟩, by decide, by decide, by decide⟩

/-- C2 (amended): every successful name claim posts exactly one lifecycle
message; it is the "rejoined" message when the identity's own Presence
Record *under the same case-insensitive name* already exists, or when the
recent-leave scan (50 most recent messages, 5-minute window) finds a
matching leave event; otherwise it is the "joined" message — never both
and never zero. -/
theorem nameClaim_exactly_one_lifecycle_message (users : List UserRec)
    (messages : List MsgDoc) (nameInput uid : String) (now : Nat)
    (hname : jsTrim nameInput ≠ "")
    (hnocol : ∀ u ∈ users,
      jsToLowerString u.name = jsToLowerString (jsTrim nameInput) → u.id = uid) :
    let out := handleNameFormSubmit users messages nameInput uid now
    out.error = none ∧ out.success = true ∧ out.newMessages.length = 1 ∧
    ((users.any fun u =>
        jsToLowerString u.name == jsToLowerString (jsTrim nameInput) && u.id == uid) = true ∨
        wasRejoiningCheck messages (jsTrim nameInput) now = true →
      out.newMessages
        = [mkSystemEvent (jsTrim nameInput ++ " has rejoined the room.") now]) ∧
    ((users.any fun u =>
        jsToLowerString u.name == jsToLowerString (jsTrim nameInput) && u.id == uid) = false ∧
        wasRejoiningCheck messages (jsTrim nameInput) now = false →
      out.newMessages
        = [mkSystemEvent (jsTrim nameInput ++ " has joined the room.") now]) := by
  intro out
  have htaken : (users.any fun u =>
      jsToLowerString u.name == jsToLowerString (jsTrim nameInput) && u.id != uid) = false := by
    rw [List.any_eq_false]
    intro u hu
    simp only [Bool.and_eq_true, beq_iff_eq, bne_iff_ne, not_and, ne_eq, not_not]
    exact fun h1 => hnocol u hu h1
  have hout : out = handleNameFormSubmit users messages nameInput uid now := rfl
  rw [hout]
  unfold handleNameFormSubmit
  simp only [if_neg hname, htaken, Bool.false_eq_true, if_false]
  cases hfe : (users.filter fun u =>
      jsToLowerString u.name == jsToLowerString (jsTrim nameInput) && u.id == uid).getLast? with
  | some u =>
    have hany : (users.any fun u =>
        jsToLowerString u.name == jsToLowerString (jsTrim nameInput) && u.id == uid) = true := by
      by_contra hfalse
      have h0 : (users.filter fun u =>
          jsToLowerString u.name == jsToLowerString (jsTrim nameInput) && u.id == uid) = [] := by
        rw [List.filter_eq_nil_iff]
        intro a ha
        have := List.any_eq_false.mp (Bool.eq_false_iff.mpr hfalse) a ha
        simpa using this
      rw [h0] at hfe
      cases hfe
    refine ⟨by trivial, by trivial, by trivial, fun _ => by trivial, fun hcontra => ?_⟩
    rw [hany] at hcontra
    exact absurd hcontra.1 (by decide)
  | none =>
    have hany : (users.any fun u =>
        jsToLowerString u.name == jsToLowerString (jsTrim nameInput) && u.id == uid) = false := by
      rw [List.any_eq_false]
      intro a ha
      intro hq
      have hmem : a ∈ users.filter fun u =>
          jsToLowerString u.name == jsToLowerString (jsTrim nameInput) && u.id == uid :=
        List.mem_filter.mpr ⟨ha, hq⟩
      rcases List.ne_nil_of_mem hmem with _
      have := List.getLast?_eq_none_iff.mp hfe
      rw [this] at hmem
      cases hmem
    cases hrej : wasRejoiningCheck messages (jsTrim nameInput) now with
    | true =>
      rw [if_pos rfl]
      exact ⟨by trivial, by trivial, by trivial, fun _ => by trivial,
        fun hcontra => absurd hcontra.2 (by decide)⟩
    | false =>
      rw [if_neg (by decide)]
      refine ⟨by trivial, by trivial, by trivial, fun hcontra => ?_, fun _ => by trivial⟩
      rcases hcontra with h | h
      · rw [hany] at h
        exact absurd h (by decide)
      · exact absurd h (by decide)

/-- C2 witness: identity "me" with no existing record and an empty message
log claims "alice": exactly one message, "alice has joined the room.". -/
theorem nameClaim_exactly_one_lifecycle_message_witness :
    let out := handleNameFormSubmit [] [] "alice" "me" 1000
    out.error = none ∧ out.success = true ∧ out.newMessages.length = 1 ∧
    (([] : List UserRec).any (fun u =>
        jsToLowerString u.name == jsToLowerString (jsTrim "alice") && u.id == "me") = true ∨
        wasRejoiningCheck [] (jsTrim "alice") 1000 = true →
      out.newMessages = [mkSystemEvent (jsTrim "alice" ++ " has rejoined the room.") 1000]) ∧
    (([] : List UserRec).any (fun u =>
        jsToLowerString u.name == jsToLowerString (jsTrim "alice") && u.id == "me") = false ∧
        wasRejoiningCheck [] (jsTrim "alice") 1000 = false →
      out.newMessages = [mkSystemEvent (jsTrim "alice" ++ " has joined the room.") 1000]) :=
  nameClaim_exactly_one_lifecycle_message [] [] "alice" "me" 1000 (by decide)
    (fun u hu => absurd hu (List.not_mem_nil u))

/-- C2 counterexample: identity "me" already holds a Presence Record (under
the name "bob"); claiming "alice" succeeds but posts
"alice has joined the room.", not the "rejoined" message the claim
requires whenever the identity's own record already exists. -/
theorem nameClaim_rejoin_condition_counterexample :
    ((⟨"me", "bob", some 0, some 0⟩ : UserRec).id = "me") ∧
    (handleNameFormSubmit [⟨"me", "bob", some 0, some 0⟩] [] "alice" "me" 1000).success
      = true ∧
    (handleNameFormSubmit [⟨"me", "bob", some 0, some 0⟩] [] "alice" "me" 1000).newMessages
      = [mkSystemEvent "alice has joined the room." 1000] := by decide

/-! ## Stale-peer reaper (`startPresenceCleanup`, part_000 lines 656-707). -/

/-- JavaScript `opt?.seconds || d`: `undefined` and `0` are falsy. -/
def jsOrNat : Option Nat → Nat → Nat
  | some n, d => if n = 0 then d else n
  | none, d => d

/-- `userData.lastActive?.seconds || userData.joined?.seconds || 0`
(part_000 line 681). -/
def effLastActive (u : UserRec) : Nat := jsOrNat u.lastActive (jsOrNat u.joined 0)

/-- `now - lastActive > staleThreshold` with `staleThreshold = 60`
(part_000 lines 677-684), over the integers. -/
def isStaleUser (u : UserRec) (now : Nat) : Bool :=
  decide ((now : Int) - (effLastActive u : Int) > 60)

/-- One tick of the stale-peer reaper: iterate over the users collection,
delete every stale record, and post one "<name> has disconnected." event
for each deleted record whose `name` field is truthy (non-empty).  Returns
(records kept, event messages posted, in iteration order). -/
def presenceCleanupTick : List UserRec → Nat → List UserRec × List MsgDoc
  | [], _ => ([], [])
  | u :: rest, now =>
    let r := presenceCleanupTick rest now
    if isStaleUser u now then
      (r.1, (if u.name ≠ "" then [mkSystemEvent (u.name ++ " has disconnected.") now]
             else []) ++ r.2)
    else (u :: r.1, r.2)

/-- C3 (amended): on a reaper tick, exactly the records whose age
`now − (lastActive if set and non-zero, else joined, else 0)` exceeds 60
seconds are deleted, and exactly one "<name> has disconnected." message is
posted per deleted record with a non-empty name; every record aged 60
seconds or less (in particular 59 seconds) is retained and produces no
message. -/
theorem presenceCleanup_reaps_exactly_stale (users : List UserRec) (now : Nat) :
    (presenceCleanupTick users now).1
      = users.filter (fun u => !isStaleUser u now) ∧
    (presenceCleanupTick users now).2
      = (users.filter fun u => isStaleUser u now && u.name != "").map
          (fun u => mkSystemEvent (u.name ++ " has disconnected.") now) ∧
    ∀ u ∈ users, ((now : Int) - (effLastActive u : Int) ≤ 60) →
      u ∈ (presenceCleanupTick users now).1 := by
  induction users with
  | nil => exact ⟨rfl, rfl, fun u hu => absurd hu (List.not_mem_nil u)⟩
  | cons v rest ih =>
    unfold presenceCleanupTick
    cases hs : isStaleUser v now with
    | true =>
      rw [if_pos rfl]
      refine ⟨?_, ?_, ?_⟩
      · simpa [List.filter_cons, hs] using ih.1
      · rw [List.filter_cons]
        cases hn : (v.name != "") with
        | true =>
          simp only [hs, hn, Bool.and_self, if_pos, List.map_cons]
          have : v.name ≠ "" := by simpa using hn
          simp [this, ih.2.1]
        | false =>
          have : ¬ v.name ≠ "" := by simpa using hn
          simp only [hs, hn, Bool.and_false, Bool.false_eq_true, if_false]
          simp [this, ih.2.1]
      · intro u hu hage
        rcases List.mem_cons.mp hu with h | h
        · exfalso
          rw [h] at hage
          have := of_decide_eq_true hs
          omega
        · exact ih.2.2 u h hage
    | false =>
      rw [if_neg (by simp [hs])]
      refine ⟨?_, ?_, ?_⟩
      · simpa [List.filter_cons, hs] using congrArg (List.cons v) ih.1
      · simpa [List.filter_cons, hs] using ih.2.1
      · intro u hu hage
        rcases List.mem_cons.mp hu with h | h
        · exact h ▸ List.mem_cons_self _ _
        · exact List.mem_cons_of_mem v (ih.2.2 u h hage)

/-- C3 witness: with `now = 1000`, the record with `lastActive` 61 seconds
in the past is deleted with exactly one disconnect message, and the record
59 seconds in the past is retained with no message. -/
theorem presenceCleanup_reaps_exactly_stale_witness :
    (presenceCleanupTick [⟨"a", "bob", some 900, some 939⟩,
        ⟨"b", "carol", some 900, some 941⟩] 1000).1
      = [⟨"b", "carol", some 900, some 941⟩] ∧
    (presenceCleanupTick [⟨"a", "bob", some 900, some 939⟩,
        ⟨"b", "carol", some 900, some 941⟩] 1000).2
      = [mkSystemEvent "bob has disconnected." 1000] := by
  have h := presenceCleanup_reaps_exactly_stale
    [⟨"a", "bob", some 900, some 939⟩, ⟨"b", "carol", some 900, some 941⟩] 1000
  exact ⟨h.1.trans (by decide), h.2.1.trans (by decide)⟩

/-- C3 counterexample: a record with `lastActive = 100` and `joined = 200`
at `now = 200` has age `now − max(lastActive, joined) = 0 ≤ 60`, so by the
claim it must be retained — but the code uses
`lastActive?.seconds || joined?.seconds || 0`, computes age 100 > 60, and
deletes it, posting a disconnect message. -/
theorem presenceCleanup_maxFormula_counterexample :
    ¬ ((200 : Int) - (max 100 200 : Int) > 60) ∧
    presenceCleanupTick [⟨"x", "bob", some 200, some 100⟩] 200
      = ([], [mkSystemEvent "bob has disconnected." 200]) := by decide

/-! ## Explicit leave sequence (`cleanupUserPresence`, part_000 lines
582-620) and the heartbeat timer (`startPresenceHeartbeat`, lines 626-650). -/

/-- Observable operations of the presence lifecycle, in program order. -/
inductive PresenceOp
  | stopTypingIndicator
  | stopHeartbeat
  | deleteOwnRecord
  | postLeftMessage
  | heartbeatWrite
deriving DecidableEq

/-- The client-session state relevant to the leave sequence. -/
structure Session where
  currentRoom : Option String
  userName : Option String
  currentUserId : Option String
  heartbeatActive : Bool
  isTyping : Bool
deriving DecidableEq

/-- `cleanupUserPresence` (part_000 lines 582-620).  After the
`!currentRoom || !userName || !currentUserId` guard it performs, in
program order: 1. `stopTypingIndicator()`; 2. `clearInterval
(heartbeatInterval)` when the heartbeat is running; 3. `deleteDoc` on the
own Presence Record; 4. `addDoc` of the "<name> has left the room."
message.  Returns the session afterwards and the ordered operation
trace. -/
def cleanupUserPresence (s : Session) : Session × List PresenceOp :=
  if s.currentRoom = none ∨ s.userName = none ∨ s.currentUserId = none then (s, [])
  else
    let s' : Session := { s with isTyping := false, heartbeatActive := false }
    (s', [PresenceOp.stopTypingIndicator] ++
      (if s.heartbeatActive then [PresenceOp.stopHeartbeat] else []) ++
      [PresenceOp.deleteOwnRecord, PresenceOp.postLeftMessage])

/-- One tick of the heartbeat interval callback (part_000 lines 634-649):
it only runs while the interval is armed; it clears itself if the session
fields are gone, and otherwise writes `lastActive` to the own Presence
Record. -/
def heartbeatTick (s : Session) : Session × List PresenceOp :=
  if s.heartbeatActive = false then (s, [])
  else if s.currentRoom = none ∨ s.userName = none ∨ s.currentUserId = none then
    ({ s with heartbeatActive := false }, [])
  else (s, [PresenceOp.heartbeatWrite])

/-- C6 (amended): on an explicit leave with an active session, the
operations occur in the order: typing indicator stopped first, then the
heartbeat timer stopped, then the own Presence Record deleted, and only
then the "<name> has left the room." message posted.  The heartbeat stop
strictly precedes the record deletion, no heartbeat write occurs anywhere
in the leave trace, and the heartbeat is disarmed afterwards so a
subsequent heartbeat tick performs no write. -/
theorem cleanupUserPresence_operation_order (s : Session)
    (h1 : s.currentRoom ≠ none) (h2 : s.userName ≠ none)
    (h3 : s.currentUserId ≠ none) (hb : s.heartbeatActive = true) :
    (cleanupUserPresence s).2
      = [PresenceOp.stopTypingIndicator, PresenceOp.stopHeartbeat,
         PresenceOp.deleteOwnRecord, PresenceOp.postLeftMessage] ∧
    PresenceOp.heartbeatWrite ∉ (cleanupUserPresence s).2 ∧
    (cleanupUserPresence s).1.heartbeatActive = false ∧
    (heartbeatTick (cleanupUserPresence s).1).2 = [] := by
  unfold cleanupUserPresence
  rw [if_neg (by simp [h1, h2, h3])]
  rw [hb]
  refine ⟨rfl, ?_, rfl, ?_⟩
  · show PresenceOp.heartbeatWrite ∉
      [PresenceOp.stopTypingIndicator, PresenceOp.stopHeartbeat,
       PresenceOp.deleteOwnRecord, PresenceOp.postLeftMessage]
    decide
  · unfold heartbeatTick
    rw [if_pos rfl]

/-- C6 counterexample: in the leave trace the *first* operation is
stopping the typing indicator; the heartbeat timer is only stopped second,
so the claimed order "heartbeat first, then typing" does not hold. -/
theorem cleanupUserPresence_order_counterexample :
    ((cleanupUserPresence ⟨some "room", some "alice", some "me", true, true⟩).2).head?
      = some PresenceOp.stopTypingIndicator ∧
    PresenceOp.stopTypingIndicator ≠ PresenceOp.stopHeartbeat ∧
    ((cleanupUserPresence ⟨some "room", some "alice", some "me", true, true⟩).2).get? 1
      = some PresenceOp.stopHeartbeat := by decide

/-- C6 witness for the amended order theorem at a concrete session. -/
theorem cleanupUserPresence_operation_order_witness :
    (cleanupUserPresence ⟨some "r", some "bob", some "id1", true, false⟩).2
      = [PresenceOp.stopTypingIndicator, PresenceOp.stopHeartbeat,
         PresenceOp.deleteOwnRecord, PresenceOp.postLeftMessage] ∧
    PresenceOp.heartbeatWrite
      ∉ (cleanupUserPresence ⟨some "r", some "bob", some "id1", true, false⟩).2 ∧
    (cleanupUserPresence ⟨some "r", some "bob", some "id1", true, false⟩).1.heartbeatActive
      = false ∧
    (heartbeatTick (cleanupUserPresence ⟨some "r", some "bob", some "id1", true, false⟩).1).2
      = [] :=
  cleanupUserPresence_operation_order ⟨some "r", some "bob", some "id1", true, false⟩
    (by decide) (by decide) (by decide) rfl

/-! ## Typing Coordinator (`handleTypingIndicator` part_000 lines
1265-1299, `stopTypingIndicator` lines 1301-1323), as a timed simulation.
Timers hold their absolute fire times; `fireTimersUpTo fuel T` fires every
armed timer due at or before `T` in time order (at most 3 firings can
chain, fuel 4 is enough). -/

structure TypingSim where
  debounceAt : Option Nat
  stopAt : Option Nat
  isTyping : Bool
  writeTimes : List Nat
  deleteTimes : List Nat
deriving DecidableEq

def typingInit : TypingSim := ⟨none, none, false, [], []⟩

/-- The debounce timer callback (lines 1275-1298): if not already typing,
set the flag and write the Typing Record (`setDoc`); then (re)arm the
3-second inactivity timeout. -/
def debounceFire (t : Nat) (s : TypingSim) : TypingSim :=
  let s1 : TypingSim := { s with debounceAt := none }
  let s2 : TypingSim :=
    if s1.isTyping then s1
    else { s1 with isTyping := true, writeTimes := s1.writeTimes ++ [t] }
  { s2 with stopAt := some (t + 3000) }

/-- `stopTypingIndicator` fired by the inactivity timeout: clear the
debounce timer, and if the typing flag is set, clear it and delete the
Typing Record (`deleteDoc`); then clear the timeout itself. -/
def stopFire (t : Nat) (s : TypingSim) : TypingSim :=
  let s1 : TypingSim := { s with debounceAt := none }
  let s2 : TypingSim :=
    if s1.isTyping then { s1 with isTyping := false, deleteTimes := s1.deleteTimes ++ [t] }
    else s1
  { s2 with stopAt := none }

def fireTimersUpTo : Nat → Nat → TypingSim → TypingSim
  | 0, _, s => s
  | fuel+1, T, s =>
    match s.stopAt, s.debounceAt with
    | some st, some d =>
      if st ≤ T && st ≤ d then fireTimersUpTo fuel T (stopFire st s)
      else if d ≤ T then fireTimersUpTo fuel T (debounceFire d s)
      else s
    | some st, none => if st ≤ T then fireTimersUpTo fuel T (stopFire st s) else s
    | none, some d => if d ≤ T then fireTimersUpTo fuel T (debounceFire d s) else s
    | none, none => s

/-- `handleTypingIndicator` on one `input` event at time `t` (lines
1267-1298): clear and re-arm the 1-second debounce timer. -/
def keystroke (t : Nat) (s : TypingSim) : TypingSim :=
  { s with debounceAt := some (t + 1000) }

/-- Deliver the keystrokes in time order, firing due timers first. -/
def typingRun : List Nat → TypingSim → TypingSim
  | [], s => s
  | t :: rest, s => typingRun rest (keystroke t (fireTimersUpTo 4 t s))

/-- The simulation state observed at time `T` (all timers due by `T`
fired). -/
def typingObserve (keys : List Nat) (T : Nat) : TypingSim :=
  fireTimersUpTo 4 T (typingRun keys typingInit)

/-- Keystroke times strictly increasing with consecutive gaps < 1000 ms:
every keystroke falls inside the previous one's debounce window. -/
def burstOk : List Nat → Bool
  | [] => true
  | [_] => true
  | a :: b :: r => (a < b && b < a + 1000) && burstOk (b :: r)

def lastKey : Nat → List Nat → Nat
  | t, [] => t
  | _, k :: ks => lastKey k ks

/-- State right after a keystroke at `t` when nothing was pending. -/
def stateAfterKey (t : Nat) : TypingSim := ⟨some (t + 1000), none, false, [], []⟩

theorem typingRun_burst : ∀ (ks : List Nat) (t : Nat), burstOk (t :: ks) = true →
    typingRun ks (stateAfterKey t) = stateAfterKey (lastKey t ks)
  | [], _, _ => rfl
  | k :: ks, t, h => by
    have hb : ((t < k) ∧ (k < t + 1000)) ∧ burstOk (k :: ks) = true := by
      simpa [burstOk, Bool.and_eq_true, decide_eq_true_eq] using h
    show typingRun ks (keystroke k (fireTimersUpTo 4 k (stateAfterKey t)))
        = stateAfterKey (lastKey t (k :: ks))
    have hfire : fireTimersUpTo 4 k (stateAfterKey t) = stateAfterKey t := by
      show (if t + 1000 ≤ k then
          fireTimersUpTo 3 k (debounceFire (t + 1000) (stateAfterKey t))
        else stateAfterKey t) = stateAfterKey t
      rw [if_neg (by omega)]
    rw [hfire]
    have hkey : keystroke k (stateAfterKey t) = stateAfterKey k := rfl
    rw [hkey]
    exact typingRun_burst ks k hb.2

/-- C8 (amended): a burst of keystrokes each falling inside the previous
debounce window produces exactly one Typing Record write, at 1000 ms after
the last keystroke; the Typing Record is deleted exactly once, at 4000 ms
after the last keystroke (1 s debounce tick plus 3 s inactivity timeout);
at 3001 ms after the last keystroke no deletion has happened yet. -/
theorem typingBurst_one_write_one_delete (t : Nat) (ks : List Nat)
    (h : burstOk (t :: ks) = true) :
    (typingObserve (t :: ks) (lastKey t ks + 4000)).writeTimes
      = [lastKey t ks + 1000] ∧
    (typingObserve (t :: ks) (lastKey t ks + 4000)).deleteTimes
      = [lastKey t ks + 4000] ∧
    (typingObserve (t :: ks) (lastKey t ks + 3001)).writeTimes
      = [lastKey t ks + 1000] ∧
    (typingObserve (t :: ks) (lastKey t ks + 3001)).deleteTimes = [] := by
  have hrun : typingRun (t :: ks) typingInit = stateAfterKey (lastKey t ks) := by
    show typingRun ks (keystroke t (fireTimersUpTo 4 t typingInit))
        = stateAfterKey (lastKey t ks)
    exact typingRun_burst ks t h
  set L := lastKey t ks with hL
  have hdeb : debounceFire (L + 1000) (stateAfterKey L)
      = ⟨none, some (L + 1000 + 3000), true, [L + 1000], []⟩ := rfl
  have hstep1 : ∀ T, L + 1000 ≤ T →
      fireTimersUpTo 4 T (stateAfterKey L)
        = fireTimersUpTo 3 T (⟨none, some (L + 1000 + 3000), true, [L + 1000], []⟩ : TypingSim) := by
    intro T hT
    show (if L + 1000 ≤ T then
        fireTimersUpTo 3 T (debounceFire (L + 1000) (stateAfterKey L))
      else stateAfterKey L) = _
    rw [if_pos hT, hdeb]
  have hstop : stopFire (L + 1000 + 3000)
      (⟨none, some (L + 1000 + 3000), true, [L + 1000], []⟩ : TypingSim)
      = ⟨none, none, false, [L + 1000], [L + 1000 + 3000]⟩ := rfl
  have hstep2 : ∀ T, L + 1000 + 3000 ≤ T →
      fireTimersUpTo 3 T (⟨none, some (L + 1000 + 3000), true, [L + 1000], []⟩ : TypingSim)
        = ⟨none, none, false, [L + 1000], [L + 1000 + 3000]⟩ := by
    intro T hT
    show (if L + 1000 + 3000 ≤ T then
        fireTimersUpTo 2 T (stopFire (L + 1000 + 3000)
          (⟨none, some (L + 1000 + 3000), true, [L + 1000], []⟩ : TypingSim))
      else (⟨none, some (L + 1000 + 3000), true, [L + 1000], []⟩ : TypingSim)) = _
    rw [if_pos hT, hstop]
    rfl
  have hstep2no : ∀ T, ¬ (L + 1000 + 3000 ≤ T) →
      fireTimersUpTo 3 T (⟨none, some (L + 1000 + 3000), true, [L + 1000], []⟩ : TypingSim)
        = ⟨none, some (L + 1000 + 3000), true, [L + 1000], []⟩ := by
    intro T hT
    show (if L + 1000 + 3000 ≤ T then
        fireTimersUpTo 2 T (stopFire (L + 1000 + 3000)
          (⟨none, some (L + 1000 + 3000), true, [L + 1000], []⟩ : TypingSim))
      else (⟨none, some (L + 1000 + 3000), true, [L + 1000], []⟩ : TypingSim)) = _
    rw [if_neg hT]
  refine ⟨?_, ?_, ?_, ?_⟩
  · unfold typingObserve
    rw [hrun, hstep1 (L + 4000) (by omega), hstep2 (L + 4000) (by omega)]
  · unfold typingObserve
    rw [hrun, hstep1 (L + 4000) (by omega), hstep2 (L + 4000) (by omega)]
  · unfold typingObserve
    rw [hrun, hstep1 (L + 3001) (by omega), hstep2no (L + 3001) (by omega)]
  · unfold typingObserve
    rw [hrun, hstep1 (L + 3001) (by omega), hstep2no (L + 3001) (by omega)]

/-- C8 witness: 10 keystrokes at 0..450 ms — one write at 1450 ms, one
delete at 4450 ms, and no delete yet at 3451 ms. -/
theorem typingBurst_one_write_one_delete_witness :
    (typingObserve [0, 50, 100, 150, 200, 250, 300, 350, 400, 450]
        (lastKey 0 [50, 100, 150, 200, 250, 300, 350, 400, 450] + 4000)).writeTimes
      = [lastKey 0 [50, 100, 150, 200, 250, 300, 350, 400, 450] + 1000] ∧
    (typingObserve [0, 50, 100, 150, 200, 250, 300, 350, 400, 450]
        (lastKey 0 [50, 100, 150, 200, 250, 300, 350, 400, 450] + 4000)).deleteTimes
      = [lastKey 0 [50, 100, 150, 200, 250, 300, 350, 400, 450] + 4000] ∧
    (typingObserve [0, 50, 100, 150, 200, 250, 300, 350, 400, 450]
        (lastKey 0 [50, 100, 150, 200, 250, 300, 350, 400, 450] + 3001)).writeTimes
      = [lastKey 0 [50, 100, 150, 200, 250, 300, 350, 400, 450] + 1000] ∧
    (typingObserve [0, 50, 100, 150, 200, 250, 300, 350, 400, 450]
        (lastKey 0 [50, 100, 150, 200, 250, 300, 350, 400, 450] + 3001)).deleteTimes = [] :=
  typingBurst_one_write_one_delete 0 [50, 100, 150, 200, 250, 300, 350, 400, 450] (by decide)

/-- C8 counterexample: after a burst of 10 keystrokes within 500 ms (last
at 450 ms), at 3001 ms of silence (time 3451) the Typing Record has *not*
been deleted — the typing flag is still set and no `deleteDoc` has run;
the deletion only happens at 4450 ms (4000 ms after the last keystroke),
because the 3-second inactivity timeout is armed by the debounce tick, not
by the keystroke. -/
theorem typingStop_at_3001ms_counterexample :
    burstOk [0, 50, 100, 150, 200, 250, 300, 350, 400, 450] = true ∧
    (typingObserve [0, 50, 100, 150, 200, 250, 300, 350, 400, 450] 3451).deleteTimes = [] ∧
    (typingObserve [0, 50, 100, 150, 200, 250, 300, 350, 400, 450] 3451).isTyping = true ∧
    (typingObserve [0, 50, 100, 150, 200, 250, 300, 350, 400, 450] 4450).deleteTimes
      = [4450] := by decide

/-! ## Message Stream Reconciler
Full-resync mode: src/app.js `listenForMessages` lines 367-431.
Delta mode: src/unnamed/part_000 `listenForMessages` lines 753-836. -/

/-- What `formatTimestamp` renders for a message's timestamp: "..." while
the server timestamp is still pending, else the formatted time of the
given seconds value. -/
inductive TsDisplay
  | pending
  | time (seconds : Nat)
deriving DecidableEq

def formatTimestampDisplay : Option Nat → TsDisplay
  | none => TsDisplay.pending
  | some s => TsDisplay.time s

/-- The modified-delta payload: the store supplies the real server
timestamp for a previously pending message. -/
def setMsgTimestamp (docs : List MsgDoc) (msgId : String) (ts : Nat) : List MsgDoc :=
  docs.map fun m => if m.id == msgId then { m with timestamp := some ts } else m

/-- app.js `listenForMessages`: on every notification collect the whole
snapshot, sort client-side by `timestamp?.seconds || 0` ascending
(stable), clear the message list and re-render everything. -/
def fullResyncRender (docs : List MsgDoc) : List MsgDoc :=
  jsSort (fun a b => decide (tsSec a ≤ tsSec b)) docs

/-- C5 (amended, full-resync listener of src/app.js): every delivered
snapshot is rendered sorted ascending by `timestamp?.seconds || 0` (a
permutation of the snapshot), a null timestamp sorts as 0 and renders as
pending, the concrete delivery order [t1, t3, t2] renders as [t1, t2, t3],
and once a modify delta supplies the real server timestamp the re-rendered
snapshot is again sorted — the message sits at its sorted position. -/
theorem fullResync_renders_sorted (docs : List MsgDoc) (m1 m2 m3 : MsgDoc)
    (h12 : tsSec m1 < tsSec m2) (h23 : tsSec m2 < tsSec m3) :
    (fullResyncRender docs).Pairwise (fun a b => tsSec a ≤ tsSec b) ∧
    (fullResyncRender docs).Perm docs ∧
    formatTimestampDisplay none = TsDisplay.pending ∧
    (∀ m ∈ docs, m.timestamp = none → tsSec m = 0) ∧
    (∀ msgId ts, (fullResyncRender (setMsgTimestamp docs msgId ts)).Pairwise
      (fun a b => tsSec a ≤ tsSec b)) ∧
    fullResyncRender [m1, m3, m2] = [m1, m2, m3] := by
  have htr : ∀ a b c : MsgDoc, decide (tsSec a ≤ tsSec b) = true →
      decide (tsSec b ≤ tsSec c) = true → decide (tsSec a ≤ tsSec c) = true := by
    intro a b c hab hbc
    simp only [decide_eq_true_eq] at hab hbc ⊢
    omega
  have htot : ∀ a b : MsgDoc,
      decide (tsSec a ≤ tsSec b) = true ∨ decide (tsSec b ≤ tsSec a) = true := by
    intro a b
    simp only [decide_eq_true_eq]
    omega
  refine ⟨?_, jsSort_perm _ docs, rfl, ?_, ?_, ?_⟩
  · exact (jsSort_pairwise htr htot docs).imp fun h => of_decide_eq_true h
  · intro m _ h
    simp [tsSec, h]
  · intro msgId ts
    exact (jsSort_pairwise htr htot _).imp fun h => of_decide_eq_true h
  · have c1 : decide (tsSec m3 ≤ tsSec m2) = false := by
      simp only [decide_eq_false_iff_not]
      omega
    have c2 : decide (tsSec m1 ≤ tsSec m2) = true := by
      simp only [decide_eq_true_eq]
      omega
    show jsSort (fun a b => decide (tsSec a ≤ tsSec b)) [m1, m3, m2] = [m1, m2, m3]
    simp only [jsSort, jsSortInsert, c1, c2, Bool.false_eq_true, if_false, if_true]

/-- C5 witness: three concrete messages with timestamps 1, 3, 2 delivered
in that order render as 1, 2, 3. -/
theorem fullResync_renders_sorted_witness :
    (fullResyncRender [⟨"a", none, some "x", "m1", "s1", some 1⟩,
        ⟨"b", none, some "x", "m3", "s1", some 3⟩,
        ⟨"c", none, some "x", "m2", "s1", some 2⟩]).Pairwise
      (fun a b => tsSec a ≤ tsSec b) ∧
    (fullResyncRender [⟨"a", none, some "x", "m1", "s1", some 1⟩,
        ⟨"b", none, some "x", "m3", "s1", some 3⟩,
        ⟨"c", none, some "x", "m2", "s1", some 2⟩]).Perm
      [⟨"a", none, some "x", "m1", "s1", some 1⟩,
        ⟨"b", none, some "x", "m3", "s1", some 3⟩,
        ⟨"c", none, some "x", "m2", "s1", some 2⟩] ∧
    formatTimestampDisplay none = TsDisplay.pending ∧
    (∀ m ∈ [⟨"a", none, some "x", "m1", "s1", some 1⟩,
        ⟨"b", none, some "x", "m3", "s1", some 3⟩,
        ⟨"c", none, some "x", "m2", "s1", some 2⟩], m.timestamp = none → tsSec m = 0) ∧
    (∀ msgId ts, (fullResyncRender (setMsgTimestamp
      [⟨"a", none, some "x", "m1", "s1", some 1⟩,
        ⟨"b", none, some "x", "m3", "s1", some 3⟩,
        ⟨"c", none, some "x", "m2", "s1", some 2⟩] msgId ts)).Pairwise
      (fun a b => tsSec a ≤ tsSec b)) ∧
    fullResyncRender [⟨"a", none, some "x", "m1", "s1", some 1⟩,
        ⟨"b", none, some "x", "m3", "s1", some 3⟩,
        ⟨"c", none, some "x", "m2", "s1", some 2⟩]
      = [⟨"a", none, some "x", "m1", "s1", some 1⟩,
        ⟨"c", none, some "x", "m2", "s1", some 2⟩,
        ⟨"b", none, some "x", "m3", "s1", some 3⟩] :=
  fullResync_renders_sorted
    [⟨"a", none, some "x", "m1", "s1", some 1⟩,
      ⟨"b", none, some "x", "m3", "s1", some 3⟩,
      ⟨"c", none, some "x", "m2", "s1", some 2⟩]
    ⟨"a", none, some "x", "m1", "s1", some 1⟩
    ⟨"c", none, some "x", "m2", "s1", some 2⟩
    ⟨"b", none, some "x", "m3", "s1", some 3⟩
    (by decide) (by decide)

/-! ### Delta-mode listener (src/unnamed/part_000 lines 753-836 with
`renderMessages` lines 941-1012). -/

inductive ChangeKind
  | added
  | modified
  | removed
deriving DecidableEq

structure DocChange where
  kind : ChangeKind
  doc : MsgDoc
deriving DecidableEq

/-- One rendered DOM entry of the message list: its `data-id`, sender and
the timestamp text currently displayed. -/
structure RenderedMsg where
  id : String
  senderId : String
  tsDisplay : TsDisplay
deriving DecidableEq

def renderEntry (m : MsgDoc) : RenderedMsg :=
  ⟨m.id, m.senderId, formatTimestampDisplay m.timestamp⟩

/-- The rendered message list plus the initial-load flag
(`isInitialMessageLoad`); the render cache (`messageCache`) holds exactly
the ids of the rendered entries. -/
structure MsgListState where
  rendered : List RenderedMsg
  isInitialLoad : Bool
deriving DecidableEq

/-- The non-added branches of the `docChanges` loop: a `modified` change
patches the displayed timestamp in place, and only for the current user's
own messages (`msgData.senderId === currentUserId`); a `removed` change
evicts the entry. -/
def applyNonAddedChange (uid : String) (st : MsgListState) (c : DocChange) :
    MsgListState :=
  match c.kind with
  | ChangeKind.added => st
  | ChangeKind.modified =>
    if c.doc.senderId == uid then
      { st with rendered := st.rendered.map fun r =>
          if r.id == c.doc.id then
            { r with tsDisplay := formatTimestampDisplay c.doc.timestamp }
          else r }
    else st
  | ChangeKind.removed =>
    { st with rendered := st.rendered.filter fun r => r.id != c.doc.id }

/-- part_000 `listenForMessages` snapshot handler: process the delta list,
then sort only the newly *added* messages by timestamp ascending and
append those not already cached (clearing everything first on the initial
load). -/
def deltaProcessSnapshot (uid : String) (st : MsgListState)
    (changes : List DocChange) : MsgListState :=
  let st1 := changes.foldl (applyNonAddedChange uid) st
  let adds := (changes.filter fun c => c.kind == ChangeKind.added).map fun c => c.doc
  if adds.isEmpty then { st1 with isInitialLoad := false }
  else
    let sortedAdds := jsSort (fun a b => decide (tsSec a ≤ tsSec b)) adds
    let base := if st.isInitialLoad then [] else st1.rendered
    { rendered := sortedAdds.foldl
        (fun acc m => if acc.any fun r => r.id == m.id then acc else acc ++ [renderEntry m])
        base,
      isInitialLoad := false }

/-- Sort key of a rendered entry (pending displays sort as 0). -/
def displayKey : TsDisplay → Nat
  | TsDisplay.pending => 0
  | TsDisplay.time s => s

/-- C5 counterexample, on the delta-mode listener of part_000: the initial
batch renders own pending message "A" before "B" (timestamp 5); when the
modified delta supplies A's real timestamp 10, the handler only patches
the displayed time in place — the rendered sequence stays [A, B], which is
not sorted ascending, so the message did *not* move to its sorted
position. -/
theorem deltaMode_modify_no_reorder_counterexample :
    deltaProcessSnapshot "me"
      (deltaProcessSnapshot "me" ⟨[], true⟩
        [⟨ChangeKind.added, ⟨"A", none, some "me-name", "hi", "me", none⟩⟩,
         ⟨ChangeKind.added, ⟨"B", none, some "other-name", "yo", "other", some 5⟩⟩])
      [⟨ChangeKind.modified, ⟨"A", none, some "me-name", "hi", "me", some 10⟩⟩]
      = ⟨[⟨"A", "me", TsDisplay.time 10⟩, ⟨"B", "other", TsDisplay.time 5⟩], false⟩ ∧
    ¬ ([⟨"A", "me", TsDisplay.time 10⟩, ⟨"B", "other", TsDisplay.time 5⟩]
        : List RenderedMsg).Pairwise
      (fun a b => displayKey a.tsDisplay ≤ displayKey b.tsDisplay) := by
  constructor
  · decide
  · intro h
    have := (List.pairwise_cons.mp h).1 ⟨"B", "other", TsDisplay.time 5⟩
      (List.mem_cons_self _ _)
    simp [displayKey] at this

/-! ## Navigation state machine
(src/unnamed/part_000: `checkSavedSession` lines 103-117, `handleHashChange`
lines 260-295, `verifyRoomExists` lines 301-321, the form handlers, and the
back-to-rooms button lines 133-141).  `authRooms` and `createdRooms` are
history variables (write-only monitors): `authRooms` records every room for
which a stored-hash comparison succeeded, `createdRooms` every room created
fresh by the room form.  They influence no transition. -/

inductive Screen
  | room
  | password
  | name
  | chat
  | loading
deriving DecidableEq

structure NavState where
  screen : Screen
  currentRoom : Option String
  savedRoom : Option String
  db : RoomsDB
  authRooms : List String
  createdRooms : List String
deriving DecidableEq

/-- `verifyRoomExists` (lines 301-321): an existing room shows the password
prompt; a missing room errors back to room selection (the saved-room
re-route retry that a dangling saved value would cause is elided — rooms
are never deleted, and our traces keep the saved room existing). -/
def verifyRoomExists (s : NavState) (r : String) : NavState :=
  if (lookupRoom s.db r).isSome then
    { s with screen := Screen.password, currentRoom := some r }
  else
    { s with screen := Screen.room, currentRoom := none }

/-- `checkSavedSession` / the empty-hash branch of `handleHashChange`:
a saved room routes to its password prompt, otherwise room selection. -/
def restoreStep (s : NavState) : NavState :=
  match s.savedRoom with
  | some r => verifyRoomExists s r
  | none => { s with screen := Screen.room, currentRoom := none }

inductive NavEvent
  | restoreSession
  | hashChange (hash : String)
  | roomFormSubmit (roomInput pwInput : String) (now : Nat)
  | passwordVerifySubmit (pwInput : String)
  | nameFormSubmit (nameInput : String)
  | backToRooms

/-- One UI event of the navigation machine.  Form submissions act only on
the screen that shows the form (the other screens are hidden by
`showUI`).  `nameFormSubmit` over-approximates the name-claim handler:
any non-empty name may advance to the chat screen (a collision would stay
on the name screen, which only weakens the safety statement). -/
def navStep (s : NavState) (e : NavEvent) : NavState :=
  match e with
  | NavEvent.restoreSession => restoreStep s
  | NavEvent.hashChange h => if h = "" then restoreStep s else verifyRoomExists s h
  | NavEvent.backToRooms => restoreStep { s with savedRoom := none }
  | NavEvent.roomFormSubmit roomInput pwInput now =>
    if s.screen = Screen.room then
      let rn := normalizeRoomName roomInput
      let pw := jsTrim pwInput
      if rn = "" ∨ pw = "" then s
      else
        match lookupRoom s.db rn with
        | some rec =>
          if rec.passwordHash = hashPassword pw then
            { s with screen := Screen.name, currentRoom := some rn,
                     savedRoom := some rn, authRooms := rn :: s.authRooms }
          else s
        | none =>
          { s with screen := Screen.name, currentRoom := some rn,
                   savedRoom := some rn,
                   db := setRoom s.db rn ⟨hashPassword pw, some now⟩,
                   createdRooms := rn :: s.createdRooms }
    else s
  | NavEvent.passwordVerifySubmit pwInput =>
    if s.screen = Screen.password then
      let pw := jsTrim pwInput
      if pw = "" then s
      else
        match s.currentRoom with
        | none => s
        | some r =>
          match lookupRoom s.db r with
          | some rec =>
            if rec.passwordHash = hashPassword pw then
              { s with screen := Screen.name, savedRoom := some r,
                       authRooms := r :: s.authRooms }
            else s
          | none => s
    else s
  | NavEvent.nameFormSubmit nameInput =>
    if s.screen = Screen.name then
      if jsTrim nameInput = "" ∨ s.currentRoom = none then s
      else { s with screen := Screen.chat, savedRoom := s.currentRoom }
    else s

def navRun (s : NavState) : List NavEvent → NavState
  | [] => s
  | e :: es => navRun (navStep s e) es

/-- The safety invariant: created rooms did not exist initially, room
existence only grows, and the name/chat screens are only showing for a
room that passed a hash comparison or was created fresh. -/
def NavInv (db0 : RoomsDB) (s : NavState) : Prop :=
  (∀ r ∈ s.createdRooms, lookupRoom db0 r = none) ∧
  (∀ r : String, (lookupRoom db0 r).isSome = true → (lookupRoom s.db r).isSome = true) ∧
  ((s.screen = Screen.name ∨ s.screen = Screen.chat) →
    ∃ r, s.currentRoom = some r ∧ (r ∈ s.authRooms ∨ r ∈ s.createdRooms))

theorem setRoom_lookup_isSome {db : RoomsDB} {r n : String} {rec : RoomRec}
    (h : (lookupRoom db r).isSome = true) :
    (lookupRoom (setRoom db n rec) r).isSome = true := by
  unfold lookupRoom setRoom at *
  cases hn : (n == r) with
  | true => simp [List.find?, hn]
  | false => simpa [List.find?, hn] using h

theorem verifyRoomExists_inv {db0 : RoomsDB} {s : NavState} (r : String)
    (h : NavInv db0 s) : NavInv db0 (verifyRoomExists s r) := by
  unfold verifyRoomExists
  by_cases hr : (lookupRoom s.db r).isSome = true
  · rw [if_pos hr]
    exact ⟨h.1, h.2.1, by rintro (h1 | h1) <;> cases h1⟩
  · rw [if_neg hr]
    exact ⟨h.1, h.2.1, by rintro (h1 | h1) <;> cases h1⟩

theorem restoreStep_inv {db0 : RoomsDB} {s : NavState}
    (h : NavInv db0 s) : NavInv db0 (restoreStep s) := by
  unfold restoreStep
  cases s.savedRoom with
  | some r => exact verifyRoomExists_inv r h
  | none => exact ⟨h.1, h.2.1, by rintro (h1 | h1) <;> cases h1⟩

theorem navStep_inv {db0 : RoomsDB} {s : NavState} (e : NavEvent)
    (h : NavInv db0 s) : NavInv db0 (navStep s e) := by
  cases e with
  | restoreSession => exact restoreStep_inv h
  | hashChange hash =>
    simp only [navStep]
    by_cases hh : hash = ""
    · rw [if_pos hh]
      exact restoreStep_inv h
    · rw [if_neg hh]
      exact verifyRoomExists_inv hash h
  | backToRooms =>
    exact restoreStep_inv ⟨h.1, h.2.1, fun hs => h.2.2 hs⟩
  | roomFormSubmit roomInput pwInput now =>
    simp only [navStep]
    by_cases hs : s.screen = Screen.room
    · rw [if_pos hs]
      by_cases hempty : normalizeRoomName roomInput = "" ∨ jsTrim pwInput = ""
      · rw [if_pos hempty]
        exact h
      · rw [if_neg hempty]
        cases hlook : lookupRoom s.db (normalizeRoomName roomInput) with
        | some rec =>
          dsimp only
          by_cases hpw : rec.passwordHash = hashPassword (jsTrim pwInput)
          · rw [if_pos hpw]
            refine ⟨h.1, h.2.1, fun _ => ?_⟩
            exact ⟨normalizeRoomName roomInput, rfl,
              Or.inl (List.mem_cons_self _ _)⟩
          · rw [if_neg hpw]
            exact h
        | none =>
          dsimp only
          refine ⟨?_, ?_, fun _ => ?_⟩
          · intro r hr
            rcases List.mem_cons.mp hr with h1 | h1
            · by_contra hne
              have hsome : (lookupRoom db0 r).isSome = true := by
                cases hdb : lookupRoom db0 r with
                | some _ => rfl
                | none => exact absurd hdb hne
              have hmono := h.2.1 r hsome
              rw [h1, hlook] at hmono
              exact absurd hmono (by decide)
            · exact h.1 r h1
          · intro r hr
            exact setRoom_lookup_isSome (h.2.1 r hr)
          · exact ⟨normalizeRoomName roomInput, rfl,
              Or.inr (List.mem_cons_self _ _)⟩
    · rw [if_neg hs]
      exact h
  | passwordVerifySubmit pwInput =>
    simp only [navStep]
    by_cases hs : s.screen = Screen.password
    · rw [if_pos hs]
      by_cases hempty : jsTrim pwInput = ""
      · rw [if_pos hempty]
        exact h
      · rw [if_neg hempty]
        cases hcr : s.currentRoom with
        | none => exact h
        | some r =>
          dsimp only
          cases hlook : lookupRoom s.db r with
          | some rec =>
            dsimp only
            by_cases hpw : rec.passwordHash = hashPassword (jsTrim pwInput)
            · rw [if_pos hpw]
              refine ⟨h.1, h.2.1, fun _ => ?_⟩
              exact ⟨r, rfl, Or.inl (List.mem_cons_self _ _)⟩
            · rw [if_neg hpw]
              exact h
          | none =>
            dsimp only
            exact h
    · rw [if_neg hs]
      exact h
  | nameFormSubmit nameInput =>
    simp only [navStep]
    by_cases hs : s.screen = Screen.name
    · rw [if_pos hs]
      by_cases hempty : jsTrim nameInput = "" ∨ s.currentRoom = none
      · rw [if_pos hempty]
        exact h
      · rw [if_neg hempty]
        refine ⟨h.1, h.2.1, fun _ => ?_⟩
        exact h.2.2 (Or.inl hs)
    · rw [if_neg hs]
      exact h

theorem navRun_inv {db0 : RoomsDB} {s : NavState} (events : List NavEvent)
    (h : NavInv db0 s) : NavInv db0 (navRun s events) := by
  induction events generalizing s with
  | nil => exact h
  | cons e es ih => exact ih (navStep_inv e h)

/-- C7: restoring the saved "last room" value routes the client to the
password prompt for that room, and in every state reachable from the
restored session the name-claim/chat screens are only showing for the
saved room after a successful comparison of its stored password hash —
the saved value never bypasses re-authentication.  (The third conjunct is
the general invariant: any room on the name/chat screens either passed a
hash comparison or was created fresh by the room form, which stores a
newly computed hash.) -/
theorem restoredSession_requires_password_hash (db : RoomsDB) (saved : String)
    (events : List NavEvent)
    (hexists : (lookupRoom db saved).isSome = true) :
    (restoreStep ⟨Screen.loading, none, some saved, db, [], []⟩).screen
      = Screen.password ∧
    (restoreStep ⟨Screen.loading, none, some saved, db, [], []⟩).currentRoom
      = some saved ∧
    (∀ r : String,
      (navRun (restoreStep ⟨Screen.loading, none, some saved, db, [], []⟩)
        events).currentRoom = some r →
      ((navRun (restoreStep ⟨Screen.loading, none, some saved, db, [], []⟩)
          events).screen = Screen.name ∨
       (navRun (restoreStep ⟨Screen.loading, none, some saved, db, [], []⟩)
          events).screen = Screen.chat) →
      (r ∈ (navRun (restoreStep ⟨Screen.loading, none, some saved, db, [], []⟩)
          events).authRooms ∨
       r ∈ (navRun (restoreStep ⟨Screen.loading, none, some saved, db, [], []⟩)
          events).createdRooms)) ∧
    (((navRun (restoreStep ⟨Screen.loading, none, some saved, db, [], []⟩)
          events).screen = Screen.name ∨
      (navRun (restoreStep ⟨Screen.loading, none, some saved, db, [], []⟩)
          events).screen = Screen.chat) →
      (navRun (restoreStep ⟨Screen.loading, none, some saved, db, [], []⟩)
        events).currentRoom = some saved →
      saved ∈ (navRun (restoreStep ⟨Screen.loading, none, some saved, db, [], []⟩)
        events).authRooms) := by
  have hs0 : restoreStep ⟨Screen.loading, none, some saved, db, [], []⟩
      = ⟨Screen.password, some saved, some saved, db, [], []⟩ := by
    unfold restoreStep
    dsimp only
    unfold verifyRoomExists
    dsimp only
    rw [if_pos hexists]
  have hinv0 : NavInv db (restoreStep ⟨Screen.loading, none, some saved, db, [], []⟩) := by
    rw [hs0]
    refine ⟨fun r hr => absurd hr (List.not_mem_nil r), fun r h => h, fun hsc => ?_⟩
    rcases hsc with h1 | h1 <;> cases h1
  have hinv := navRun_inv events hinv0
  refine ⟨by rw [hs0], by rw [hs0], ?_, ?_⟩
  · intro r hcr hsc
    obtain ⟨r', hr', hmem⟩ := hinv.2.2 hsc
    rw [hcr] at hr'
    cases Option.some.inj hr'
    exact hmem
  · intro hsc hcr
    obtain ⟨r', hr', hmem⟩ := hinv.2.2 hsc
    rw [hcr] at hr'
    cases Option.some.inj hr'
    rcases hmem with hm | hm
    · exact hm
    · have := hinv.1 _ hm
      rw [this] at hexists
      exact absurd hexists (by decide)

/-- C7 witness: a concrete database holding room "myroom"; the restored
session shows the password prompt for it, with the reachability
guarantees instantiated on the single-event trace that submits the
correct password. -/
theorem restoredSession_requires_password_hash_witness :
    (restoreStep ⟨Screen.loading, none, some "myroom",
        ⟨[("myroom", ⟨"storedhash", some 0⟩)]⟩, [], []⟩).screen
      = Screen.password ∧
    (restoreStep ⟨Screen.loading, none, some "myroom",
        ⟨[("myroom", ⟨"storedhash", some 0⟩)]⟩, [], []⟩).currentRoom
      = some "myroom" ∧
    (∀ r : String,
      (navRun (restoreStep ⟨Screen.loading, none, some "myroom",
          ⟨[("myroom", ⟨"storedhash", some 0⟩)]⟩, [], []⟩)
        [NavEvent.passwordVerifySubmit "guess"]).currentRoom = some r →
      ((navRun (restoreStep ⟨Screen.loading, none, some "myroom",
            ⟨[("myroom", ⟨"storedhash", some 0⟩)]⟩, [], []⟩)
          [NavEvent.passwordVerifySubmit "guess"]).screen = Screen.name ∨
       (navRun (restoreStep ⟨Screen.loading, none, some "myroom",
            ⟨[("myroom", ⟨"storedhash", some 0⟩)]⟩, [], []⟩)
          [NavEvent.passwordVerifySubmit "guess"]).screen = Screen.chat) →
      (r ∈ (navRun (restoreStep ⟨Screen.loading, none, some "myroom",
            ⟨[("myroom", ⟨"storedhash", some 0⟩)]⟩, [], []⟩)
          [NavEvent.passwordVerifySubmit "guess"]).authRooms ∨
       r ∈ (navRun (restoreStep ⟨Screen.loading, none, some "myroom",
            ⟨[("myroom", ⟨"storedhash", some 0⟩)]⟩, [], []⟩)
          [NavEvent.passwordVerifySubmit "guess"]).createdRooms)) ∧
    (((navRun (restoreStep ⟨Screen.loading, none, some "myroom",
            ⟨[("myroom", ⟨"storedhash", some 0⟩)]⟩, [], []⟩)
          [NavEvent.passwordVerifySubmit "guess"]).screen = Screen.name ∨
      (navRun (restoreStep ⟨Screen.loading, none, some "myroom",
            ⟨[("myroom", ⟨"storedhash", some 0⟩)]⟩, [], []⟩)
          [NavEvent.passwordVerifySubmit "guess"]).screen = Screen.chat) →
      (navRun (restoreStep ⟨Screen.loading, none, some "myroom",
            ⟨[("myroom", ⟨"storedhash", some 0⟩)]⟩, [], []⟩)
        [NavEvent.passwordVerifySubmit "guess"]).currentRoom = some "myroom" →
      "myroom" ∈ (navRun (restoreStep ⟨Screen.loading, none, some "myroom",
            ⟨[("myroom", ⟨"storedhash", some 0⟩)]⟩, [], []⟩)
        [NavEvent.passwordVerifySubmit "guess"]).authRooms) :=
  restoredSession_requires_password_hash ⟨[("myroom", ⟨"storedhash", some 0⟩)]⟩
    "myroom" [NavEvent.passwordVerifySubmit "guess"] (by decide)
